import Mathlib

/-!
# SpeculAI — verification of the natural-language specification

Shallow embedding of the SpeculAI frontend (TypeScript, `src/frontend` and
the unnamed api-client/component sources) plus spec-modelled definitions of
the Risk Engine and Memory Retrieval core (whose Python sources are not in
the repository snapshot; only their plans and callers are).

Conventions:
* JavaScript numbers are modelled as rationals (`ℚ`); `NaN` is modelled
  explicitly where the code can produce it.
* ISO `YYYY-MM-DD` date strings are modelled as `(year, month, day)`
  triples; lexicographic string comparison on well-formed zero-padded ISO
  strings coincides with lexicographic comparison of the triples, which we
  realise through the numeric key `y*10000 + m*100 + d`.
* TypeScript string-union types are modelled by their list of values.
-/

namespace SpeculAI

/-! ## Backtest page (`src/frontend/src/pages/Backtest.tsx`) -/

/-- Status field of `BacktestProgressResponse` as polled by the Backtest
page; the backend sends it as a string. -/
structure BacktestProgress where
  status : String
deriving DecidableEq

/-- The React state of the Backtest page that the submit control reads:
`progress` (last polled response, `null` before the first trigger) and
`loading` (a trigger request is in flight). -/
structure BacktestPageState where
  progress : Option BacktestProgress
  loading : Bool
deriving DecidableEq

/-- `Backtest.tsx` line 142:
`const isRunning = progress?.status === 'RUNNING' || progress?.status === 'PENDING'`. -/
def isRunning (s : BacktestPageState) : Bool :=
  match s.progress with
  | some p => p.status == "RUNNING" || p.status == "PENDING"
  | none => false

/-- `Backtest.tsx` lines 283-289: the submit button's `disabled` attribute
is `loading || isRunning`. -/
def submitDisabled (s : BacktestPageState) : Bool :=
  s.loading || isRunning s

/-! ## Trade status domain (`src/frontend/src/pages/Trades.tsx`) -/

/-- `Trades.tsx` lines 45-53: the `(value, label)` pairs offered by the
status filter select. -/
def tradeStatusFilterOptions : List (String × String) :=
  [("", "All statuses"),
   ("EXECUTED", "Executed"),
   ("PENDING", "Pending"),
   ("FAILED", "Failed"),
   ("CANCELLED", "Cancelled")]

/-- The non-empty status values selectable in the trade-history filter
(the empty value means "All statuses"). -/
def tradeStatusFilterValues : List String :=
  (tradeStatusFilterOptions.map Prod.fst).filter (fun v => !(v == ""))

/-- `Trades.tsx` lines 75-88: the `styles` record of `statusBadge`, keyed
by status string. -/
def tradeStatusBadgeStyles : List (String × String) :=
  [("EXECUTED", "text-gain bg-gain/10 border-gain/30"),
   ("PENDING", "text-yellow-400 bg-yellow-400/10 border-yellow-400/30"),
   ("FAILED", "text-loss bg-loss/10 border-loss/30"),
   ("CANCELLED", "text-gray-400 bg-gray-700 border-gray-600")]

/-- JavaScript `toUpperCase` on one character, restricted to ASCII (every
status string the page handles is ASCII). -/
def asciiUpperChar (c : Char) : Char :=
  if 97 ≤ c.toNat ∧ c.toNat ≤ 122 then Char.ofNat (c.toNat - 32) else c

/-- JavaScript `String.prototype.toUpperCase` on ASCII strings. -/
def asciiUpper (s : String) : String :=
  String.mk (s.data.map asciiUpperChar)

/-- `Trades.tsx` statusBadge: `styles[status.toUpperCase()] ?? styles.CANCELLED`. -/
def statusBadgeStyle (status : String) : String :=
  (tradeStatusBadgeStyles.lookup (asciiUpper status)).getD
    "text-gray-400 bg-gray-700 border-gray-600"

/-- Modelled from the spec: the Trade entity's status domain of the data
model, `status ∈ {PENDING, FILLED, FAILED, CANCELLED}` (spec §3; the
backend enum source is not in the repository snapshot). -/
def modelTradeStatuses : List String :=
  ["PENDING", "FILLED", "FAILED", "CANCELLED"]

/-! ## Pipeline status type (`src/frontend/src/types/index.ts`) -/

/-- `types/index.ts` line 173:
`export type PipelineStatus = 'RUNNING' | 'SUCCESS' | 'FAILED' | null` —
the list of the union's non-null string alternatives. -/
def pipelineStatusValues : List String :=
  ["RUNNING", "SUCCESS", "FAILED"]

/-- Modelled from the spec: the PipelineRun entity's status domain of the
data model, `status ∈ {RUNNING, SUCCESS, FAILED, PARTIAL_FAILURE}`
(spec §3; the backend enum source is not in the repository snapshot). -/
def modelPipelineRunStatuses : List String :=
  ["RUNNING", "SUCCESS", "FAILED", "PARTIAL_FAILURE"]

/-! ## ConfidenceBar (`src/unnamed/part_001`) -/

/-- A JavaScript number: either `NaN` or a finite value (modelled as a
rational). `parseFloat` of a non-numeric string yields `NaN`. -/
inductive JSNumber
  | nan
  | val (x : ℚ)
deriving DecidableEq

/-- `ConfidenceBar` line 24, inner expression:
`isNaN(numeric) ? 0 : numeric`. -/
def nanToZero : JSNumber → ℚ
  | .nan => 0
  | .val x => x

/-- `ConfidenceBar` line 24:
`const clamped = Math.max(0, Math.min(1, isNaN(numeric) ? 0 : numeric))`,
as a function of `numeric` (the input after the `typeof`/`parseFloat`
step of line 23). -/
def confidenceClamped (numeric : JSNumber) : ℚ :=
  max 0 (min 1 (nanToZero numeric))

/-- `ConfidenceBar` line 25: `const pct = Math.round(clamped * 100)`.
JavaScript `Math.round x = ⌊x + 1/2⌋`, which is Mathlib's `round`. -/
def confidencePct (numeric : JSNumber) : ℤ :=
  round (confidenceClamped numeric * 100)

/-! ## Pagination (`src/unnamed/part_002`) -/

/-- Props of the `Pagination` component. JavaScript numbers; the claim
restricts attention to integer values. -/
structure PaginationProps where
  total : ℤ
  limit : ℤ
  offset : ℤ
deriving DecidableEq

/-- `Math.ceil (a / b)` on integers with `b > 0`, via
`⌈a / b⌉ = -⌊(-a) / b⌋`. -/
def jsCeilDiv (a b : ℤ) : ℤ := -((-a).fdiv b)

/-- `Pagination` line 22: `Math.floor(offset / limit) + 1`. -/
def currentPage (p : PaginationProps) : ℤ := p.offset.fdiv p.limit + 1

/-- `Pagination` line 23: `Math.max(1, Math.ceil(total / limit))`. -/
def totalPages (p : PaginationProps) : ℤ := max 1 (jsCeilDiv p.total p.limit)

/-- `Pagination` line 24: `offset > 0`. -/
def hasPrev (p : PaginationProps) : Bool := decide (0 < p.offset)

/-- `Pagination` line 25: `offset + limit < total`. -/
def hasNext (p : PaginationProps) : Bool := decide (p.offset + p.limit < p.total)

/-- `Pagination` lines 27-29, `goToPrev`: the offset emitted through
`onOffsetChange`, or `none` when the Prev button does nothing. -/
def goToPrev (p : PaginationProps) : Option ℤ :=
  if hasPrev p then some (max 0 (p.offset - p.limit)) else none

/-- `Pagination` lines 31-33, `goToNext`. -/
def goToNext (p : PaginationProps) : Option ℤ :=
  if hasNext p then some (p.offset + p.limit) else none

/-- `Pagination` line 35: `const start = total === 0 ? 0 : offset + 1`. -/
def startItem (p : PaginationProps) : ℤ :=
  if p.total = 0 then 0 else p.offset + 1

/-- `Pagination` line 36: `const end = Math.min(offset + limit, total)`. -/
def endItem (p : PaginationProps) : ℤ := min (p.offset + p.limit) p.total

/-! ## apiFetch (`src/unnamed/part_000`) -/

/-- The `detail` field of an error body: either a JSON string (used
verbatim) or any other truthy JSON value (used via `JSON.stringify`,
modelled by its stringification). -/
inductive DetailVal
  | dstr (s : String)
  | dother (stringified : String)
deriving DecidableEq

/-- The parts of a parsed JSON response body that `apiFetch` inspects.
`errorMessage` models `body?.error?.message` (`none` = absent or falsy),
`detail` models `body?.detail` (`none` = absent or falsy). -/
structure JsonBody where
  errorMessage : Option String
  detail : Option DetailVal
deriving DecidableEq

/-- An HTTP response as `apiFetch` observes it: status code, status text,
and the JSON parse of the body (`none` when `response.json()` rejects). -/
structure HttpResponse where
  status : Nat
  statusText : String
  jsonBody : Option JsonBody
deriving DecidableEq

/-- `response.ok`: status in the range 200-299. -/
def responseOk (r : HttpResponse) : Bool :=
  200 ≤ r.status && r.status ≤ 299

/-- `part_000` line 42: the fallback message
`` `HTTP ${response.status}: ${response.statusText}` ``. -/
def fallbackMessage (r : HttpResponse) : String :=
  "HTTP " ++ toString r.status ++ ": " ++ r.statusText

/-- `part_000` lines 42-52: the message of the `Error` thrown for a
non-2xx response: `body.error.message` when present and truthy, else
`body.detail` (verbatim if a string, else `JSON.stringify`ed), else the
HTTP fallback; a body that is not JSON keeps the fallback. -/
def errorResponseMessage (r : HttpResponse) : String :=
  match r.jsonBody with
  | none => fallbackMessage r
  | some b =>
    match b.errorMessage with
    | some m => m
    | none =>
      match b.detail with
      | some (.dstr s) => s
      | some (.dother j) => j
      | none => fallbackMessage r

/-- Outcome of an `apiFetch` call: the parsed body (fulfilled promise),
an `Error` thrown by `apiFetch` itself, or the rejection propagated from
`response.json()` on a 2xx response whose body is not JSON. -/
inductive FetchOutcome
  | success (body : JsonBody)
  | apiError (message : String)
  | parseFailure
deriving DecidableEq

/-- Whether the outcome delivers a value to the caller. -/
def FetchOutcome.isSuccess : FetchOutcome → Bool
  | .success _ => true
  | _ => false

/-- `part_000` lines 32-57, `apiFetch`: throw with the computed message
on non-2xx, otherwise return `response.json()`. -/
def apiFetch (r : HttpResponse) : FetchOutcome :=
  if responseOk r then
    match r.jsonBody with
    | some b => .success b
    | none => .parseFailure
  else
    .apiError (errorResponseMessage r)

/-! ## Backtest form validation (`Backtest.tsx` lines 179-227)

The date inputs yield well-formed zero-padded ISO `YYYY-MM-DD` strings or
`""`. On such strings the page's lexicographic string comparisons agree
with comparison of the numeric key `y*10000 + m*100 + d`, and
`new Date(s).getTime()` is a fixed offset plus `86400000` times the
proleptic-Gregorian day number, so differences of `getTime` values equal
differences of day numbers times `86400000`. -/

/-- An ISO `YYYY-MM-DD` date value. -/
structure SDate where
  year : Nat
  month : Nat
  day : Nat
deriving DecidableEq

/-- Numeric key realising lexicographic comparison of well-formed
zero-padded ISO date strings. -/
def SDate.key (d : SDate) : Nat := d.year * 10000 + d.month * 100 + d.day

/-- Gregorian leap year. -/
def isLeapYear (y : Nat) : Bool :=
  (y % 4 == 0 && y % 100 != 0) || y % 400 == 0

/-- Number of leap years among `0, …, y-1` in the proleptic Gregorian
calendar (year 0 is a leap year): `1` for year 0 plus the multiples of 4
in `[1, y-1]` that are not multiples of 100 unless of 400. -/
def leapYearsBefore (y : Nat) : Nat :=
  match y with
  | 0 => 0
  | yy + 1 => yy / 4 - yy / 100 + yy / 400 + 1

/-- Days in the years `0, …, y-1` of the proleptic Gregorian calendar. -/
def daysBeforeYear (y : Nat) : Nat :=
  365 * y + leapYearsBefore y

/-- Cumulative days before the 1-based month `m`. -/
def daysBeforeMonth (leap : Bool) (m : Nat) : Nat :=
  let base :=
    match m with
    | 1 => 0
    | 2 => 31
    | 3 => 59
    | 4 => 90
    | 5 => 120
    | 6 => 151
    | 7 => 181
    | 8 => 212
    | 9 => 243
    | 10 => 273
    | 11 => 304
    | _ => 334
  if leap && decide (3 ≤ m) then base + 1 else base

/-- Day number of a date: `new Date(s).getTime()` is
`(SDate.toDays s − epochDays) * 86400000` for a fixed `epochDays`, which
cancels in every difference the page computes. -/
def SDate.toDays (d : SDate) : Nat :=
  daysBeforeYear d.year + daysBeforeMonth (isLeapYear d.year) d.month + (d.day - 1)

/-- The Backtest configuration form state read by `validate`: the two
date inputs (`none` models the empty string), today's date
(`new Date().toISOString().slice(0, 10)`), and the initial-capital
number input. -/
structure BacktestForm where
  startDate : Option SDate
  endDate : Option SDate
  today : SDate
  initialCapital : ℚ
deriving DecidableEq

/-- `Backtest.tsx` lines 179-204, `validate()`: both dates set, start
strictly before end (string compare), end not after today (string
compare), `msRange / (1000*60*60*24*365) ≤ 5`, and positive capital —
checked in source order, `false` on the first failure. -/
def validate (f : BacktestForm) : Bool :=
  match f.startDate, f.endDate with
  | some s, some e =>
    if e.key ≤ s.key then false
    else if f.today.key < e.key then false
    else
      let msRange : ℚ := (e.toDays : ℚ) * 86400000 - (s.toDays : ℚ) * 86400000
      let yearRange : ℚ := msRange / (1000 * 60 * 60 * 24 * 365)
      if 5 < yearRange then false
      else if f.initialCapital ≤ 0 then false
      else true
  | _, _ => false

/-- The `triggerBacktest` payload built by `handleSubmit`. -/
structure BacktestTriggerRequest where
  start_date : SDate
  end_date : SDate
  initial_capital : ℚ
deriving DecidableEq

/-- `Backtest.tsx` lines 206-227, `handleSubmit`: returns early (no
request) when `validate()` is false, otherwise sends the trigger
request. -/
def handleSubmit (f : BacktestForm) : Option BacktestTriggerRequest :=
  if validate f then
    match f.startDate, f.endDate with
    | some s, some e => some ⟨s, e, f.initialCapital⟩
    | _, _ => none
  else none

/-! ## sortPositions (`src/frontend/src/components/PortfolioSummaryCard.tsx`) -/

/-- Numeric value of a most-significant-first digit list. -/
def digitsVal (ds : List Char) : Nat :=
  ds.foldl (fun n c => 10 * n + (c.toNat - 48)) 0

/-- Exponent part of a JavaScript number literal after the `e`/`E`:
optional sign then digits; an empty digit run contributes exponent 0
(`parseFloat` stops before the `e`). -/
def expoOf (cs : List Char) : ℤ :=
  let p : ℤ × List Char :=
    match cs with
    | '-' :: rest => (-1, rest)
    | '+' :: rest => (1, rest)
    | _ => (1, cs)
  let ed := p.2.takeWhile Char.isDigit
  if ed.isEmpty then 0 else p.1 * (digitsVal ed : ℤ)

/-- The JavaScript `parseFloat` builtin on finite decimal literals: skip
leading whitespace, optional sign, longest prefix of the form
`digits [. digits] [e|E [sign] digits]` with at least one digit before or
after the dot, ignoring trailing characters. `none` models `NaN` (no
parsable prefix); the non-finite `Infinity` literal is outside the
model. -/
def jsParseFloat (s : String) : Option ℚ :=
  let cs := s.data.dropWhile fun c =>
    c == ' ' || c == '\t' || c == '\n' || c == '\r'
  let p : ℚ × List Char :=
    match cs with
    | '-' :: rest => (-1, rest)
    | '+' :: rest => (1, rest)
    | _ => (1, cs)
  let ip := p.2.takeWhile Char.isDigit
  let cs2 := p.2.dropWhile Char.isDigit
  let q : List Char × List Char :=
    match cs2 with
    | '.' :: rest => (rest.takeWhile Char.isDigit, rest.dropWhile Char.isDigit)
    | _ => ([], cs2)
  if ip.isEmpty && q.1.isEmpty then none
  else
    let mant : ℚ := (digitsVal ip : ℚ) + (digitsVal q.1 : ℚ) / (10 : ℚ) ^ q.1.length
    let expo : ℤ :=
      match q.2 with
      | 'e' :: rest => expoOf rest
      | 'E' :: rest => expoOf rest
      | _ => 0
    some (p.1 * mant * (10 : ℚ) ^ expo)

/-- `PositionResponse` of `types/index.ts` (the fields `sortPositions`
can touch, plus identity). Monetary fields arrive as decimal strings;
nullable fields are `Option`. -/
structure PositionResponse where
  id : Nat
  stock_id : Nat
  ticker : Option String
  quantity : String
  avg_price : String
  current_price : Option String
  unrealized_pnl : Option String
  weight_pct : Option String
  currency : String
  status : String
deriving DecidableEq

/-- The `SortKey` union of `PortfolioSummaryCard.tsx` line 131. -/
inductive SortKey
  | ticker
  | quantity
  | avg_price
  | current_price
  | unrealized_pnl
  | weight_pct
deriving DecidableEq

/-- `SortDirection` of `types/index.ts` line 164. -/
inductive SortDirection
  | asc
  | desc
deriving DecidableEq

/-- `SortConfig` of `types/index.ts` lines 166-169, at `SortKey`. -/
structure SortConfig where
  key : SortKey
  direction : SortDirection
deriving DecidableEq

/-- `a[sort.key] ?? ''`: the raw field value with `null` coalesced to the
empty string. -/
def rawField (p : PositionResponse) : SortKey → String
  | .ticker => p.ticker.getD ""
  | .quantity => p.quantity
  | .avg_price => p.avg_price
  | .current_price => p.current_price.getD ""
  | .unrealized_pnl => p.unrealized_pnl.getD ""
  | .weight_pct => p.weight_pct.getD ""

/-- `PortfolioSummaryCard.tsx` line 178: the numeric sort keys. -/
def numericKeys : List SortKey :=
  [.quantity, .avg_price, .current_price, .unrealized_pnl, .weight_pct]

/-- `parseFloat(String(aVal)) || 0`: `NaN` — in particular any string
with no parsable numeric prefix — is replaced by `0`. -/
def numericValue (s : String) : ℚ := (jsParseFloat s).getD 0

/-- The value a position contributes to the comparison: a string for
`ticker`, a number for the numeric keys. -/
inductive SortVal
  | str (s : String)
  | num (x : ℚ)
deriving DecidableEq

/-- `sortPositions` lines 174-182: the comparison value of a position
under the sort key. -/
def sortVal (key : SortKey) (p : PositionResponse) : SortVal :=
  if key ∈ numericKeys then .num (numericValue (rawField p key))
  else .str (rawField p key)

/-- JavaScript `<` on two values of the same primitive type (the
comparator only ever compares two strings or two numbers). -/
def svLt : SortVal → SortVal → Bool
  | .str a, .str b => decide (a < b)
  | .num a, .num b => decide (a < b)
  | _, _ => false

/-- `sortPositions` lines 184-186: the comparator passed to `sort`. -/
def positionCompare (sort : SortConfig) (a b : PositionResponse) : ℤ :=
  let aVal := sortVal sort.key a
  let bVal := sortVal sort.key b
  if svLt aVal bVal then
    match sort.direction with
    | .asc => -1
    | .desc => 1
  else if svLt bVal aVal then
    match sort.direction with
    | .asc => 1
    | .desc => -1
  else 0

/-- `sortPositions` lines 172-188: `[...positions].sort(cmp)` — a copy of
the input, stably sorted by the comparator (ECMAScript `sort` is stable);
the input list itself is immutable in the model, as the copy makes it in
the source. -/
def sortPositions (positions : List PositionResponse) (sort : SortConfig) :
    List PositionResponse :=
  positions.mergeSort fun a b => decide (positionCompare sort a b ≤ 0)

/-! ## Memory Retrieval (spec §4.3 and the §3 visibility invariant)

The `services/memory.py` source is not in the repository snapshot (only
its plan and callers are), so the subsystem is modelled from the spec. -/

/-- Modelled from the spec: a decision action, `action ∈ {BUY, SELL, HOLD}`. -/
inductive TradeAction
  | buy
  | sell
  | hold
deriving DecidableEq

/-- Modelled from the spec: the visibility partition under which Memory
Retrieval runs — live, or a single backtest run's own history. -/
inductive MemoryScope
  | live
  | backtestRun (runId : Nat)
deriving DecidableEq

/-- Modelled from the spec: the parts of a persisted DecisionReport that
Memory Retrieval reads — identity, instrument and sector, action,
backtest tagging, recency, assessed outcome, and the stored indicator
snapshot (RSI value and MACD-cross direction). -/
structure MemoryReport where
  id : Nat
  instrument : Nat
  sector : Nat
  action : TradeAction
  isBacktest : Bool
  backtestRunId : Option Nat
  date : Nat
  outcome : Option ℚ
  rsi : ℚ
  macdCrossUp : Bool
deriving DecidableEq

/-- Modelled from the spec: §3's invariant decides row visibility — rows
tagged `is_backtest=true` belong only to their BacktestRun's scope;
untagged rows are live only. -/
def visibleInScope : MemoryScope → MemoryReport → Bool
  | .live, r => !r.isBacktest
  | .backtestRun a, r => r.isBacktest && r.backtestRunId == some a

/-- Modelled from the spec: the candidate a memory lookup is built for. -/
structure MemoryCandidate where
  instrument : Nat
  sector : Nat
  action : TradeAction
  rsi : ℚ
  macdCrossUp : Bool
deriving DecidableEq

/-- Modelled from the spec: tier-2 ordering — best assessed outcome first
for a BUY candidate, worst first otherwise. -/
def outcomeRank (action : TradeAction) (a b : MemoryReport) : Bool :=
  match action with
  | .buy => decide (b.outcome.getD 0 ≤ a.outcome.getD 0)
  | _ => decide (a.outcome.getD 0 ≤ b.outcome.getD 0)

/-- De-duplication by report id, keeping first occurrences. -/
def dedupById (seen : List Nat) : List MemoryReport → List MemoryReport
  | [] => []
  | r :: rest =>
    if r.id ∈ seen then dedupById seen rest
    else r :: dedupById (r.id :: seen) rest

/-- Modelled from the spec: §4.3's ranked lookup — tier 1 (up to 10 most
recent same-instrument reports), tier 2 (up to 5 same-sector same-action
reports of other instruments with an assessed outcome, ordered by
outcome), tier 3 (indicator snapshot within the tolerance band), the
union de-duplicated by report id and capped at 10 — all computed over
the scope's visibility partition of the store. -/
def retrieveMemory (scope : MemoryScope) (store : List MemoryReport)
    (cand : MemoryCandidate) (rsiTol : ℚ) : List MemoryReport :=
  let visible := store.filter fun r => visibleInScope scope r
  let tier1 :=
    ((visible.filter fun r => r.instrument == cand.instrument).mergeSort
      fun a b => decide (b.date ≤ a.date)).take 10
  let tier2 :=
    ((visible.filter fun r =>
        r.sector == cand.sector && !(r.instrument == cand.instrument)
          && decide (r.action = cand.action) && r.outcome.isSome).mergeSort
      (outcomeRank cand.action)).take 5
  let tier3 := visible.filter fun r =>
    decide (|r.rsi - cand.rsi| ≤ rsiTol) && (r.macdCrossUp == cand.macdCrossUp)
  (dedupById [] (tier1 ++ tier2 ++ tier3)).take 10

/-! ## Risk Engine (spec §4.2)

The `services/risk_manager.py` source is not in the repository snapshot
(only its plan, tests outline and callers are), so the engine is modelled
from the spec's §4.2 algorithm. All monetary figures are in the base
currency (step 1's conversion is the identity in the model). -/

/-- Modelled from the spec: trade side. -/
inductive Side
  | buy
  | sell
deriving DecidableEq

/-- Modelled from the spec: a proposed recommendation entering Risk
Engine validation — instrument, side, oracle confidence, and the
suggested allocation (fraction of portfolio value) used to size a BUY. -/
structure Proposal where
  instrument : Nat
  side : Side
  confidence : ℚ
  suggestedAllocation : ℚ
deriving DecidableEq

/-- Modelled from the spec: the portfolio snapshot the Risk Engine
reads — available cash and the open positions' current values. -/
structure PortfolioState where
  cash : ℚ
  positions : List (Nat × ℚ)
deriving DecidableEq

/-- Total portfolio value: cash plus open position values. -/
def portfolioValue (p : PortfolioState) : ℚ :=
  p.cash + (p.positions.map Prod.snd).sum

/-- Modelled from the spec: the risk configuration —
`max_positions`, `max_position_pct` (as a fraction), `min_trade_value`. -/
structure RiskConfig where
  maxPositions : Nat
  maxPositionPct : ℚ
  minTradeValue : ℚ
deriving DecidableEq

/-- Modelled from the spec: machine-readable rejection reasons
(`internal_error` is §4.2's catch-all; the total model never emits it). -/
inductive RejectReason
  | notHeld
  | maxPositionsReached
  | belowMinimum
  | insufficientCash
  | internalError
deriving DecidableEq

/-- An approved trade with its value in base currency. -/
structure ApprovedTrade where
  instrument : Nat
  side : Side
  value : ℚ
deriving DecidableEq

/-- Result of SELL processing: approvals, rejections, the positions still
held, and the cash freed for the same batch. -/
structure SellOutcome where
  approved : List ApprovedTrade
  rejected : List (Proposal × RejectReason)
  remaining : List (Nat × ℚ)
  freedCash : ℚ
deriving DecidableEq

/-- Modelled from the spec: §4.2 steps 2-3 — each SELL, in proposal
order, is approved iff the instrument is currently held (liquidating the
position at its value, freeing its cash and its slot for the batch),
else rejected `not_held`. -/
def processSells : List (Nat × ℚ) → List Proposal → SellOutcome
  | held, [] => ⟨[], [], held, 0⟩
  | held, p :: rest =>
    match held.find? (fun x => x.1 == p.instrument) with
    | some pos =>
      let o := processSells (held.eraseP (fun x => x.1 == p.instrument)) rest
      ⟨⟨p.instrument, .sell, pos.2⟩ :: o.approved, o.rejected, o.remaining,
        pos.2 + o.freedCash⟩
    | none =>
      let o := processSells held rest
      ⟨o.approved, (p, .notHeld) :: o.rejected, o.remaining, o.freedCash⟩

/-- Result of BUY processing: approvals, rejections, remaining cash. -/
structure BuyOutcome where
  approved : List ApprovedTrade
  rejected : List (Proposal × RejectReason)
  remainingCash : ℚ
deriving DecidableEq

/-- Modelled from the spec: §4.2 step 5 — for each BUY in order: reject
`max_positions_reached` at the position cap; size the order as
`min(suggested_allocation, max_position_pct) × portfolio_value`, shrunk
to what cash allows; reject `below_minimum` when the resulting value is
under `min_trade_value`, or `insufficient_cash` when no cash remains;
otherwise approve, decrementing cash and incrementing the open-position
count for the rest of the batch. -/
def processBuys (cfg : RiskConfig) (pv : ℚ) :
    ℚ → Nat → List Proposal → BuyOutcome
  | cash, _, [] => ⟨[], [], cash⟩
  | cash, count, p :: rest =>
    if cfg.maxPositions ≤ count then
      let o := processBuys cfg pv cash count rest
      ⟨o.approved, (p, .maxPositionsReached) :: o.rejected, o.remainingCash⟩
    else
      let value := min (min p.suggestedAllocation cfg.maxPositionPct * pv) cash
      if value < cfg.minTradeValue then
        let o := processBuys cfg pv cash count rest
        ⟨o.approved, (p, .belowMinimum) :: o.rejected, o.remainingCash⟩
      else if cash ≤ 0 then
        let o := processBuys cfg pv cash count rest
        ⟨o.approved, (p, .insufficientCash) :: o.rejected, o.remainingCash⟩
      else
        let o := processBuys cfg pv (cash - value) (count + 1) rest
        ⟨⟨p.instrument, .buy, value⟩ :: o.approved, o.rejected, o.remainingCash⟩

/-- The Risk Engine's output: approved trades and rejections, each
rejection carrying its reason code. -/
structure RiskResult where
  approved : List ApprovedTrade
  rejected : List (Proposal × RejectReason)
deriving DecidableEq

/-- SELL phase of §4.2: the SELL proposals, in proposal order, against
the current positions. -/
def riskSellOutcome (port : PortfolioState) (props : List Proposal) :
    SellOutcome :=
  processSells port.positions (props.filter fun p => decide (p.side = Side.sell))

/-- BUY phase of §4.2: the BUY proposals in stable descending-confidence
order, against the running cash (start cash plus freed SELL cash) and the
running open-position count (slots freed by SELLs already subtracted). -/
def riskBuyOutcome (cfg : RiskConfig) (port : PortfolioState)
    (props : List Proposal) : BuyOutcome :=
  processBuys cfg (portfolioValue port)
    (port.cash + (riskSellOutcome port props).freedCash)
    (riskSellOutcome port props).remaining.length
    ((props.filter fun p => decide (p.side = Side.buy)).mergeSort
      fun a b => decide (b.confidence ≤ a.confidence))

/-- Modelled from the spec: §4.2's validation — a pure total function of
`(proposals, portfolio snapshot, config)` returning approved and rejected
lists; SELLs are processed before BUYs. -/
def validateRecommendations (cfg : RiskConfig) (port : PortfolioState)
    (props : List Proposal) : RiskResult :=
  ⟨(riskSellOutcome port props).approved
      ++ (riskBuyOutcome cfg port props).approved,
   (riskSellOutcome port props).rejected
      ++ (riskBuyOutcome cfg port props).rejected⟩

/-- Sum of the approved trade values on one side. -/
def approvedValueSum (r : RiskResult) (s : Side) : ℚ :=
  ((r.approved.filter fun t => decide (t.side = s)).map fun t => t.value).sum

/-- Sum of approved trade values on one side for one instrument. -/
def approvedValueFor (r : RiskResult) (s : Side) (i : Nat) : ℚ :=
  ((r.approved.filter fun t =>
      decide (t.side = s) && (t.instrument == i)).map fun t => t.value).sum

/-- Value of the position in instrument `i` after settling the batch:
its starting value, minus approved SELL liquidations, plus approved BUY
trade values. -/
def resultingPositionValue (port : PortfolioState) (r : RiskResult)
    (i : Nat) : ℚ :=
  (port.positions.lookup i).getD 0
    - approvedValueFor r .sell i + approvedValueFor r .buy i

end SpeculAI

namespace SpeculAI

/-! ## Theorems -/

/-- Claim C4: whenever the last polled backtest status is RUNNING or
PENDING, the Run Backtest submit control is disabled, so the page never
issues a second trigger while one is active. -/
theorem backtest_submit_disabled_while_running
    (s : BacktestPageState) (p : BacktestProgress)
    (hp : s.progress = some p)
    (hs : p.status = "RUNNING" ∨ p.status = "PENDING") :
    submitDisabled s = true := by
  have hrun : isRunning s = true := by
    unfold isRunning
    rw [hp]
    rcases hs with h | h <;> simp [h]
  unfold submitDisabled
  rw [hrun]
  simp

/-- Witness for C4 at a concrete page state. -/
theorem backtest_submit_disabled_while_running_witness :
    submitDisabled ⟨some ⟨"RUNNING"⟩, false⟩ = true :=
  backtest_submit_disabled_while_running ⟨some ⟨"RUNNING"⟩, false⟩
    ⟨"RUNNING"⟩ rfl (Or.inl rfl)

/-- Claim C5 (code bug): the trade-history interface handles the status
domain {EXECUTED, PENDING, FAILED, CANCELLED}, not the data model's
{PENDING, FILLED, FAILED, CANCELLED}: `FILLED` is not a filter option and
gets no distinct badge style (it falls back to the CANCELLED style), while
`EXECUTED` — absent from the data model — is offered and styled. -/
theorem trades_status_domain_mismatch :
    tradeStatusFilterValues = ["EXECUTED", "PENDING", "FAILED", "CANCELLED"]
    ∧ tradeStatusBadgeStyles.map Prod.fst
        = ["EXECUTED", "PENDING", "FAILED", "CANCELLED"]
    ∧ "FILLED" ∈ modelTradeStatuses
    ∧ "FILLED" ∉ tradeStatusFilterValues
    ∧ "EXECUTED" ∉ modelTradeStatuses
    ∧ statusBadgeStyle "FILLED" = statusBadgeStyle "CANCELLED" := by
  refine ⟨by decide, by decide, by decide, by decide, by decide, ?_⟩
  decide

/-- Claim C6 (code bug): the data model's PipelineRun status
`PARTIAL_FAILURE` is not representable by the frontend's `PipelineStatus`
type, whose non-null values are exactly {RUNNING, SUCCESS, FAILED}. -/
theorem pipeline_status_missing_partial_failure :
    "PARTIAL_FAILURE" ∈ modelPipelineRunStatuses
    ∧ "PARTIAL_FAILURE" ∉ pipelineStatusValues
    ∧ pipelineStatusValues ≠ modelPipelineRunStatuses := by
  decide

/-- Claim C7: `ConfidenceBar`'s displayed percentage is total and respects
the [0,1] domain: it always lies in [0,100]; a numeric input `c ∈ [0,1]`
yields `round (100·c)`; non-numeric input (NaN after parsing) maps to 0;
out-of-range input is clamped to the nearest bound. -/
theorem confidence_pct_total_and_in_range :
    (∀ n : JSNumber, 0 ≤ confidencePct n ∧ confidencePct n ≤ 100)
    ∧ (∀ x : ℚ, 0 ≤ x → x ≤ 1 → confidencePct (.val x) = round (100 * x))
    ∧ confidencePct .nan = 0
    ∧ (∀ x : ℚ, 1 < x → confidencePct (.val x) = 100)
    ∧ (∀ x : ℚ, x < 0 → confidencePct (.val x) = 0) := by
  have hcl : ∀ n : JSNumber, 0 ≤ confidenceClamped n ∧ confidenceClamped n ≤ 1 := by
    intro n
    constructor
    · exact le_max_left 0 _
    · have h1 : min 1 (nanToZero n) ≤ 1 := min_le_left _ _
      exact max_le (by norm_num) h1
  refine ⟨?_, ?_, ?_, ?_, ?_⟩
  · intro n
    obtain ⟨h0, h1⟩ := hcl n
    constructor
    · rw [confidencePct, round_eq]
      calc (0 : ℤ) = ⌊(1/2 : ℚ)⌋ := by norm_num
        _ ≤ ⌊confidenceClamped n * 100 + 1/2⌋ :=
            Int.floor_le_floor (by nlinarith)
    · rw [confidencePct, round_eq]
      calc ⌊confidenceClamped n * 100 + 1/2⌋
          ≤ ⌊(100 : ℚ) + 1/2⌋ := Int.floor_le_floor (by nlinarith)
        _ = 100 := by norm_num
  · intro x h0 h1
    have : confidenceClamped (.val x) = x := by
      unfold confidenceClamped nanToZero
      rw [min_eq_right h1, max_eq_right h0]
    rw [confidencePct, this, mul_comm]
  · have h : confidenceClamped .nan = 0 := by
      unfold confidenceClamped nanToZero
      rw [min_eq_right (by norm_num : (0:ℚ) ≤ 1), max_self]
    rw [confidencePct, h]
    norm_num
  · intro x hx
    have : confidenceClamped (.val x) = 1 := by
      unfold confidenceClamped nanToZero
      rw [min_eq_left (le_of_lt hx)]
      exact max_eq_right (by norm_num)
    rw [confidencePct, this]
    norm_num
  · intro x hx
    have hmin : min 1 x = x := min_eq_right (by linarith)
    have : confidenceClamped (.val x) = 0 := by
      unfold confidenceClamped nanToZero
      rw [hmin]
      exact max_eq_left (le_of_lt hx)
    rw [confidencePct, this]
    norm_num

/-- Witness for C7 at concrete inputs. -/
theorem confidence_pct_total_and_in_range_witness :
    confidencePct (.val (87/100)) = round ((100 : ℚ) * (87/100))
    ∧ confidencePct (.val 7) = 100
    ∧ confidencePct (.val (-3)) = 0 :=
  ⟨confidence_pct_total_and_in_range.2.1 (87/100) (by norm_num) (by norm_num),
   confidence_pct_total_and_in_range.2.2.2.1 7 (by norm_num),
   confidence_pct_total_and_in_range.2.2.2.2 (-3) (by norm_num)⟩

/-- Claim C9 counterexample: at `total = 10`, `limit = 50`, `offset = 50`
(all satisfying the claim's `total ≥ 0`, `limit > 0`, `offset ≥ 0`), the
displayed range has `start = 51 > 10 = end`, so the claimed
`1 ≤ start ≤ end ≤ total` fails. -/
theorem pagination_range_cex :
    (0 : ℤ) ≤ 10 ∧ (0 : ℤ) < 50 ∧ (0 : ℤ) ≤ 50
    ∧ startItem ⟨10, 50, 50⟩ = 51
    ∧ endItem ⟨10, 50, 50⟩ = 10
    ∧ ¬ startItem ⟨10, 50, 50⟩ ≤ endItem ⟨10, 50, 50⟩ := by
  refine ⟨by norm_num, by norm_num, by norm_num, ?_, ?_, ?_⟩ <;>
    simp [startItem, endItem]

/-- Claim C9 as amended: for `total ≥ 0`, `limit > 0`, `offset ≥ 0`, the
Prev action emits `max 0 (offset − limit)` (never negative), the Next
action is enabled iff `offset + limit < total` and never moves past the
last item, `totalPages ≥ 1`, `start = 0` when `total = 0`, and — when
additionally `offset < total` — `1 ≤ start ≤ end ≤ total`. -/
theorem pagination_stays_in_range (p : PaginationProps)
    (ht : 0 ≤ p.total) (hl : 0 < p.limit) (ho : 0 ≤ p.offset) :
    (∀ o, goToPrev p = some o → o = max 0 (p.offset - p.limit) ∧ 0 ≤ o)
    ∧ (hasNext p = true ↔ p.offset + p.limit < p.total)
    ∧ (∀ o, goToNext p = some o → o < p.total)
    ∧ 1 ≤ totalPages p
    ∧ (p.total = 0 → startItem p = 0)
    ∧ (p.offset < p.total →
        1 ≤ startItem p ∧ startItem p ≤ endItem p ∧ endItem p ≤ p.total) :=
  by
  refine ⟨?_, ?_, ?_, ?_, ?_, ?_⟩
  · intro o h
    unfold goToPrev at h
    by_cases hp : hasPrev p = true
    · rw [if_pos hp] at h
      cases h
      exact ⟨rfl, le_max_left 0 _⟩
    · rw [if_neg hp] at h
      cases h
  · unfold hasNext
    exact decide_eq_true_iff
  · intro o h
    unfold goToNext at h
    by_cases hn : hasNext p = true
    · rw [if_pos hn] at h
      cases h
      exact of_decide_eq_true hn
    · rw [if_neg hn] at h
      cases h
  · exact le_max_left 1 _
  · intro h0
    unfold startItem
    rw [if_pos h0]
  · intro hofs
    have h0 : p.total ≠ 0 := by omega
    have hstart : startItem p = p.offset + 1 := by
      unfold startItem
      rw [if_neg h0]
    refine ⟨by omega, ?_, min_le_right _ _⟩
    rw [hstart]
    exact le_min (by omega) (by omega)

/-- Witness for C9's amended theorem at `total = 150`, `limit = 50`,
`offset = 50`. -/
theorem pagination_stays_in_range_witness :
    1 ≤ totalPages ⟨150, 50, 50⟩ ∧ 1 ≤ startItem ⟨150, 50, 50⟩ :=
  ⟨(pagination_stays_in_range ⟨150, 50, 50⟩ (by norm_num) (by norm_num)
      (by norm_num)).2.2.2.1,
   ((pagination_stays_in_range ⟨150, 50, 50⟩ (by norm_num) (by norm_num)
      (by norm_num)).2.2.2.2.2 (by norm_num)).1⟩

/-- Claim C8 counterexample: a response with status 200 and a body that
is not JSON. The status is 2xx, yet `apiFetch` does not return a parsed
body — `response.json()`'s rejection propagates — refuting "returns the
parsed JSON body if and only if the response status is 2xx". -/
theorem apifetch_cex :
    responseOk ⟨200, "OK", none⟩ = true
    ∧ apiFetch ⟨200, "OK", none⟩ = .parseFailure
    ∧ (apiFetch ⟨200, "OK", none⟩).isSuccess = false := by
  refine ⟨by decide, ?_, ?_⟩ <;> simp [apiFetch, responseOk, FetchOutcome.isSuccess]

/-- Claim C8 as amended: `apiFetch` returns the parsed JSON body iff the
status is 2xx and the body parses as JSON (a 2xx non-JSON body propagates
the parse rejection instead); every non-2xx response throws an `Error`
whose message is `body.error.message` when present, else `body.detail`
(stringified when not a string), else the `HTTP <status>: <statusText>`
fallback — so no caller ever receives a value from a failed request. -/
theorem apifetch_success_iff (r : HttpResponse) :
    (∀ b, apiFetch r = .success b ↔ responseOk r = true ∧ r.jsonBody = some b)
    ∧ (responseOk r = false → apiFetch r = .apiError (errorResponseMessage r))
    ∧ (∀ b m, responseOk r = false → r.jsonBody = some b →
        b.errorMessage = some m → apiFetch r = .apiError m)
    ∧ (∀ b s, responseOk r = false → r.jsonBody = some b →
        b.errorMessage = none → b.detail = some (.dstr s) →
        apiFetch r = .apiError s)
    ∧ (∀ b j, responseOk r = false → r.jsonBody = some b →
        b.errorMessage = none → b.detail = some (.dother j) →
        apiFetch r = .apiError j)
    ∧ (∀ b, responseOk r = false → r.jsonBody = some b →
        b.errorMessage = none → b.detail = none →
        apiFetch r = .apiError (fallbackMessage r))
    ∧ (responseOk r = false → r.jsonBody = none →
        apiFetch r = .apiError (fallbackMessage r)) :=
  by
  have herr : responseOk r = false →
      apiFetch r = .apiError (errorResponseMessage r) := by
    intro hok
    unfold apiFetch
    rw [hok]
    simp
  refine ⟨?_, herr, ?_, ?_, ?_, ?_, ?_⟩
  · intro b
    constructor
    · intro h
      unfold apiFetch at h
      by_cases hok : responseOk r = true
      · rw [if_pos hok] at h
        cases hb : r.jsonBody with
        | none => rw [hb] at h; cases h
        | some b' =>
          rw [hb] at h
          injection h with h2
          subst h2
          exact ⟨hok, rfl⟩
      · rw [if_neg hok] at h
        cases h
    · rintro ⟨hok, hb⟩
      unfold apiFetch
      rw [if_pos hok, hb]
  · intro b m hok hb hm
    rw [herr hok]
    simp [errorResponseMessage, hb, hm]
  · intro b s hok hb hm hd
    rw [herr hok]
    simp [errorResponseMessage, hb, hm, hd]
  · intro b j hok hb hm hd
    rw [herr hok]
    simp [errorResponseMessage, hb, hm, hd]
  · intro b hok hb hm hd
    rw [herr hok]
    simp [errorResponseMessage, hb, hm, hd]
  · intro hok hb
    rw [herr hok]
    simp [errorResponseMessage, hb]

/-- Claim C3: `validate()` returns true — and only then is a backtest
request sent — iff both dates are set, start is strictly before end, end
is not after today, the span is at most 5 years (the code measures a year
as 365 days, so at most 1825 days), and the initial capital is strictly
positive; when `validate()` is false no request is sent. -/
theorem backtest_validate_iff (f : BacktestForm) :
    (validate f = true ↔
      ∃ s e, f.startDate = some s ∧ f.endDate = some e
        ∧ s.key < e.key
        ∧ e.key ≤ f.today.key
        ∧ (e.toDays : ℤ) - (s.toDays : ℤ) ≤ 1825
        ∧ 0 < f.initialCapital)
    ∧ ((handleSubmit f).isSome = true ↔ validate f = true)
    ∧ (validate f = false → handleSubmit f = none) :=
  by
  have key : ∀ a b : ℕ,
      (¬ (5 : ℚ) < ((a : ℚ) * 86400000 - (b : ℚ) * 86400000)
          / (1000 * 60 * 60 * 24 * 365))
        ↔ ((a : ℤ) - (b : ℤ) ≤ 1825) := by
    intro a b
    rw [not_lt, div_le_iff₀ (by norm_num : (0 : ℚ) < 1000 * 60 * 60 * 24 * 365)]
    constructor
    · intro h
      have h2 : ((a : ℚ) - b) * 86400000 ≤ 1825 * 86400000 := by
        calc ((a : ℚ) - b) * 86400000
            = (a : ℚ) * 86400000 - (b : ℚ) * 86400000 := by ring
          _ ≤ 5 * (1000 * 60 * 60 * 24 * 365) := h
          _ = 1825 * 86400000 := by norm_num
      have h3 : ((a : ℚ) - b) ≤ 1825 :=
        le_of_mul_le_mul_right h2 (by norm_num)
      exact_mod_cast h3
    · intro h
      have h3 : ((a : ℚ) - b) ≤ 1825 := by exact_mod_cast h
      calc (a : ℚ) * 86400000 - (b : ℚ) * 86400000
          = ((a : ℚ) - b) * 86400000 := by ring
        _ ≤ 1825 * 86400000 := by nlinarith
        _ = 5 * (1000 * 60 * 60 * 24 * 365) := by norm_num
  cases hs : f.startDate with
  | none =>
    refine ⟨by simp [validate, hs], ?_, ?_⟩
    · simp [handleSubmit, validate, hs]
    · intro hv
      simp [handleSubmit, validate, hs]
  | some s =>
    cases he : f.endDate with
    | none =>
      refine ⟨by simp [validate, hs, he], ?_, ?_⟩
      · simp [handleSubmit, validate, hs, he]
      · intro hv
        simp [handleSubmit, validate, hs, he]
    | some e =>
      have hchar : validate f = true ↔
          s.key < e.key ∧ e.key ≤ f.today.key
            ∧ (e.toDays : ℤ) - (s.toDays : ℤ) ≤ 1825
            ∧ 0 < f.initialCapital := by
        simp only [validate, hs, he]
        split_ifs with h1 h2 h3 h4
        · simp only [Bool.false_eq_true, false_iff]
          rintro ⟨hlt, -, -, -⟩
          omega
        · simp only [Bool.false_eq_true, false_iff]
          rintro ⟨-, hle, -, -⟩
          omega
        · simp only [Bool.false_eq_true, false_iff]
          rintro ⟨-, -, hdays, -⟩
          exact absurd h3 ((key e.toDays s.toDays).mpr hdays)
        · simp only [Bool.false_eq_true, false_iff]
          rintro ⟨-, -, -, hcap⟩
          linarith
        · simp only [true_iff]
          exact ⟨by omega, by omega, (key e.toDays s.toDays).mp h3,
            not_le.mp h4⟩
      refine ⟨?_, ?_, ?_⟩
      · rw [hchar]
        constructor
        · rintro ⟨h1, h2, h3, h4⟩
          exact ⟨s, e, rfl, rfl, h1, h2, h3, h4⟩
        · rintro ⟨s', e', hs', he', h1, h2, h3, h4⟩
          injection hs' with hss
          injection he' with hee
          subst hss
          subst hee
          exact ⟨h1, h2, h3, h4⟩
      · by_cases hv : validate f = true
        · simp [handleSubmit, hv, hs, he]
        · have hv' : validate f = false := by
            cases h : validate f
            · rfl
            · exact absurd h hv
          simp [handleSubmit, hv']
      · intro hv
        simp [handleSubmit, hv]

/-- Witness for C3 at a concrete accepted form: 2024-01-01 to 2024-06-01
viewed on 2025-01-01 with capital 50000. -/
theorem backtest_validate_iff_witness :
    validate ⟨some ⟨2024, 1, 1⟩, some ⟨2024, 6, 1⟩, ⟨2025, 1, 1⟩, 50000⟩
      = true :=
  (backtest_validate_iff
      ⟨some ⟨2024, 1, 1⟩, some ⟨2024, 6, 1⟩, ⟨2025, 1, 1⟩, 50000⟩).1.mpr
    ⟨⟨2024, 1, 1⟩, ⟨2024, 6, 1⟩, rfl, rfl, by decide, by decide, by decide,
      by norm_num⟩

/-- Helper: the BUY phase spends exactly the sum of the approved BUY
values: approved values sum to starting cash minus remaining cash. -/
theorem processBuys_sum_approved (cfg : RiskConfig) (pv : ℚ) :
    ∀ (bs : List Proposal) (cash : ℚ) (count : Nat),
      ((processBuys cfg pv cash count bs).approved.map fun t => t.value).sum
        = cash - (processBuys cfg pv cash count bs).remainingCash := by
  intro bs
  induction bs with
  | nil =>
    intro cash count
    simp [processBuys]
  | cons p rest ih =>
    intro cash count
    simp only [processBuys]
    split_ifs with h1 h2 h3
    · simpa using ih cash count
    · simpa using ih cash count
    · simpa using ih cash count
    · simp only [List.map_cons, List.sum_cons]
      rw [ih]
      ring

/-- Helper: the BUY phase never overdraws — remaining cash stays
nonnegative when the starting cash is. -/
theorem processBuys_remaining_nonneg (cfg : RiskConfig) (pv : ℚ) :
    ∀ (bs : List Proposal) (cash : ℚ) (count : Nat), 0 ≤ cash →
      0 ≤ (processBuys cfg pv cash count bs).remainingCash := by
  intro bs
  induction bs with
  | nil =>
    intro cash count h
    simpa [processBuys] using h
  | cons p rest ih =>
    intro cash count hc
    simp only [processBuys]
    split_ifs with h1 h2 h3
    · simpa using ih cash count hc
    · simpa using ih cash count hc
    · simpa using ih cash count hc
    · have hmin :
          min (min p.suggestedAllocation cfg.maxPositionPct * pv) cash ≤ cash :=
        min_le_right _ _
      simpa using ih (cash - min (min p.suggestedAllocation cfg.maxPositionPct * pv) cash)
        (count + 1) (by linarith)

/-- Helper: every trade the BUY phase approves is a BUY whose value is at
most `max_position_pct` of the portfolio value used for sizing. -/
theorem processBuys_approved_bound (cfg : RiskConfig) (pv : ℚ)
    (hpv : 0 ≤ pv) :
    ∀ (bs : List Proposal) (cash : ℚ) (count : Nat),
      ∀ t ∈ (processBuys cfg pv cash count bs).approved,
        t.side = Side.buy ∧ t.value ≤ cfg.maxPositionPct * pv := by
  intro bs
  induction bs with
  | nil =>
    intro cash count t ht
    simp [processBuys] at ht
  | cons p rest ih =>
    intro cash count t ht
    simp only [processBuys] at ht
    split_ifs at ht with h1 h2 h3
    · exact ih cash count t (by simpa using ht)
    · exact ih cash count t (by simpa using ht)
    · exact ih cash count t (by simpa using ht)
    · rcases List.mem_cons.mp (by simpa using ht) with h | h
      · subst h
        refine ⟨rfl, ?_⟩
        calc min (min p.suggestedAllocation cfg.maxPositionPct * pv) cash
            ≤ min p.suggestedAllocation cfg.maxPositionPct * pv :=
              min_le_left _ _
          _ ≤ cfg.maxPositionPct * pv :=
              mul_le_mul_of_nonneg_right (min_le_right _ _) hpv
      · exact ih _ _ t h

/-- Helper: the SELL phase frees exactly the sum of the approved values,
and approves only SELLs. -/
theorem processSells_freed_sum :
    ∀ (sells : List Proposal) (held : List (Nat × ℚ)),
      (processSells held sells).freedCash
        = ((processSells held sells).approved.map fun t => t.value).sum
      ∧ ∀ t ∈ (processSells held sells).approved, t.side = Side.sell := by
  intro sells
  induction sells with
  | nil =>
    intro held
    simp [processSells]
  | cons p rest ih =>
    intro held
    cases hf : held.find? (fun x => x.1 == p.instrument) with
    | some pos =>
      simp only [processSells, hf]
      constructor
      · simp only [List.map_cons, List.sum_cons]
        rw [(ih _).1]
      · intro t ht
        rcases List.mem_cons.mp (by simpa using ht) with h | h
        · subst h
          rfl
        · exact (ih _).2 t h
    | none =>
      simp only [processSells, hf]
      exact ih held

/-- Helper: the SELL phase frees a nonnegative amount when all held
position values are nonnegative. -/
theorem processSells_freed_nonneg :
    ∀ (sells : List Proposal) (held : List (Nat × ℚ)),
      (∀ x ∈ held, 0 ≤ x.2) →
      0 ≤ (processSells held sells).freedCash := by
  intro sells
  induction sells with
  | nil =>
    intro held hh
    simp [processSells]
  | cons p rest ih =>
    intro held hh
    cases hf : held.find? (fun x => x.1 == p.instrument) with
    | some pos =>
      simp only [processSells, hf]
      have hmem : pos ∈ held := List.mem_of_find?_eq_some hf
      have h2 : ∀ x ∈ held.eraseP (fun x => x.1 == p.instrument), 0 ≤ x.2 :=
        fun x hx => hh x ((List.eraseP_sublist held).subset hx)
      have hrec := ih _ h2
      have hpos := hh pos hmem
      linarith
    | none =>
      simp only [processSells, hf]
      exact ih held hh

/-- Claim C1 counterexample: portfolio with cash 0 holding instruments 1
and 2 (value 500 each), `max_position_pct = 60%`, batch
`[SELL 1, BUY 2 (allocation 100%)]`. The SELL frees 500, the BUY is
approved for 500, so the approved BUY values sum to 500 > 0 (the cash at
the start of the batch), and instrument 2's resulting position is
1000 > 600 = 60% of portfolio value. -/
theorem risk_batch_bounds_cex :
    approvedValueSum
        (validateRecommendations ⟨20, 6/10, 1⟩ ⟨0, [(1, 500), (2, 500)]⟩
          [⟨1, .sell, 9/10, 0⟩, ⟨2, .buy, 8/10, 1⟩]) Side.buy
      = 500
    ∧ resultingPositionValue ⟨0, [(1, 500), (2, 500)]⟩
        (validateRecommendations ⟨20, 6/10, 1⟩ ⟨0, [(1, 500), (2, 500)]⟩
          [⟨1, .sell, 9/10, 0⟩, ⟨2, .buy, 8/10, 1⟩]) 2
      = 1000
    ∧ ¬ approvedValueSum
        (validateRecommendations ⟨20, 6/10, 1⟩ ⟨0, [(1, 500), (2, 500)]⟩
          [⟨1, .sell, 9/10, 0⟩, ⟨2, .buy, 8/10, 1⟩]) Side.buy
      ≤ (0 : ℚ)
    ∧ ¬ resultingPositionValue ⟨0, [(1, 500), (2, 500)]⟩
        (validateRecommendations ⟨20, 6/10, 1⟩ ⟨0, [(1, 500), (2, 500)]⟩
          [⟨1, .sell, 9/10, 0⟩, ⟨2, .buy, 8/10, 1⟩]) 2
      ≤ (6/10 : ℚ) * portfolioValue ⟨0, [(1, 500), (2, 500)]⟩ :=
  by
  have heval :
      validateRecommendations ⟨20, 6/10, 1⟩ ⟨0, [(1, 500), (2, 500)]⟩
          [⟨1, .sell, 9/10, 0⟩, ⟨2, .buy, 8/10, 1⟩]
        = ⟨[⟨1, .sell, 500⟩, ⟨2, .buy, 500⟩], []⟩ := by
    have hso :
        riskSellOutcome ⟨0, [(1, 500), (2, 500)]⟩
            [⟨1, .sell, 9/10, 0⟩, ⟨2, .buy, 8/10, 1⟩]
          = ⟨[⟨1, .sell, 500⟩], [], [(2, 500)], 500⟩ := by
      simp [riskSellOutcome, processSells, List.find?, List.eraseP]
    have hfil :
        List.filter (fun p => decide (p.side = Side.buy))
            [(⟨1, .sell, 9/10, 0⟩ : Proposal), ⟨2, .buy, 8/10, 1⟩]
          = [⟨2, .buy, 8/10, 1⟩] := rfl
    have hbo :
        riskBuyOutcome ⟨20, 6/10, 1⟩ ⟨0, [(1, 500), (2, 500)]⟩
            [⟨1, .sell, 9/10, 0⟩, ⟨2, .buy, 8/10, 1⟩]
          = ⟨[⟨2, .buy, 500⟩], [], 0⟩ := by
      rw [riskBuyOutcome, hso, hfil, List.mergeSort_singleton]
      norm_num [processBuys, portfolioValue, min_def]
    rw [validateRecommendations, hso, hbo]
    rfl
  have e1 : List.filter (fun t => decide (t.side = Side.buy))
      [(⟨1, .sell, 500⟩ : ApprovedTrade), ⟨2, .buy, 500⟩]
        = [⟨2, .buy, 500⟩] := rfl
  have e2 : List.filter (fun t => decide (t.side = Side.sell) && t.instrument == 2)
      [(⟨1, .sell, 500⟩ : ApprovedTrade), ⟨2, .buy, 500⟩] = [] := rfl
  have e3 : List.lookup 2 [(1, (500 : ℚ)), (2, 500)] = some 500 := rfl
  rw [heval]
  simp only [approvedValueSum, resultingPositionValue, approvedValueFor,
    portfolioValue]
  rw [e1, e2, e3]
  norm_num

/-- Claim C1 as amended: Risk Engine validation is a pure, total (hence
non-raising) function; for every portfolio with nonnegative cash and
position values and every batch, the approved BUY trade values sum to at
most the cash at the start of the batch plus the cash freed by the
batch's approved SELLs (cash never goes negative), and every approved BUY
trade's value — the resulting position when the batch's BUYs target
distinct, not-currently-held instruments — is at most `max_position_pct`
of portfolio value. -/
theorem risk_engine_cash_and_position_bounds (cfg : RiskConfig)
    (port : PortfolioState) (props : List Proposal)
    (hc : 0 ≤ port.cash) (hp : ∀ x ∈ port.positions, 0 ≤ x.2) :
    approvedValueSum (validateRecommendations cfg port props) Side.buy
      ≤ port.cash
        + approvedValueSum (validateRecommendations cfg port props) Side.sell
    ∧ ∀ t ∈ (validateRecommendations cfg port props).approved,
        t.side = Side.buy →
          t.value ≤ cfg.maxPositionPct * portfolioValue port :=
  by
  have hpv : 0 ≤ portfolioValue port := by
    unfold portfolioValue
    have hs : 0 ≤ (port.positions.map Prod.snd).sum := by
      apply List.sum_nonneg
      intro x hx
      rcases List.mem_map.mp hx with ⟨y, hy, rfl⟩
      exact hp y hy
    linarith
  have hsideS : ∀ t ∈ (riskSellOutcome port props).approved,
      t.side = Side.sell :=
    (processSells_freed_sum _ _).2
  have hsideB : ∀ t ∈ (riskBuyOutcome cfg port props).approved,
      t.side = Side.buy ∧ t.value ≤ cfg.maxPositionPct * portfolioValue port :=
    fun t ht => processBuys_approved_bound cfg (portfolioValue port) hpv _ _ _ t ht
  have hfilterB :
      ((riskSellOutcome port props).approved
          ++ (riskBuyOutcome cfg port props).approved).filter
          (fun t => decide (t.side = Side.buy))
        = (riskBuyOutcome cfg port props).approved := by
    rw [List.filter_append]
    have h1 : (riskSellOutcome port props).approved.filter
        (fun t => decide (t.side = Side.buy)) = [] := by
      rw [List.filter_eq_nil_iff]
      intro a ha
      simp [hsideS a ha]
    have h2 : (riskBuyOutcome cfg port props).approved.filter
        (fun t => decide (t.side = Side.buy))
        = (riskBuyOutcome cfg port props).approved := by
      rw [List.filter_eq_self]
      intro a ha
      simp [(hsideB a ha).1]
    rw [h1, h2, List.nil_append]
  have hfilterS :
      ((riskSellOutcome port props).approved
          ++ (riskBuyOutcome cfg port props).approved).filter
          (fun t => decide (t.side = Side.sell))
        = (riskSellOutcome port props).approved := by
    rw [List.filter_append]
    have h1 : (riskSellOutcome port props).approved.filter
        (fun t => decide (t.side = Side.sell))
        = (riskSellOutcome port props).approved := by
      rw [List.filter_eq_self]
      intro a ha
      simp [hsideS a ha]
    have h2 : (riskBuyOutcome cfg port props).approved.filter
        (fun t => decide (t.side = Side.sell)) = [] := by
      rw [List.filter_eq_nil_iff]
      intro a ha
      simp [(hsideB a ha).1]
    rw [h1, h2, List.append_nil]
  constructor
  · have hbuyeq :
        approvedValueSum (validateRecommendations cfg port props) Side.buy
          = ((riskBuyOutcome cfg port props).approved.map fun t => t.value).sum := by
      unfold approvedValueSum validateRecommendations
      rw [hfilterB]
    have hselleq :
        approvedValueSum (validateRecommendations cfg port props) Side.sell
          = (riskSellOutcome port props).freedCash := by
      unfold approvedValueSum validateRecommendations
      rw [hfilterS]
      exact (processSells_freed_sum _ _).1.symm
    have hfreed : 0 ≤ (riskSellOutcome port props).freedCash :=
      processSells_freed_nonneg _ _ hp
    have hsum := processBuys_sum_approved cfg (portfolioValue port)
      ((props.filter fun p => decide (p.side = Side.buy)).mergeSort
        fun a b => decide (b.confidence ≤ a.confidence))
      (port.cash + (riskSellOutcome port props).freedCash)
      (riskSellOutcome port props).remaining.length
    have hrem := processBuys_remaining_nonneg cfg (portfolioValue port)
      ((props.filter fun p => decide (p.side = Side.buy)).mergeSort
        fun a b => decide (b.confidence ≤ a.confidence))
      (port.cash + (riskSellOutcome port props).freedCash)
      (riskSellOutcome port props).remaining.length
      (by linarith)
    rw [hbuyeq, hselleq]
    unfold riskBuyOutcome
    linarith [hsum, hrem]
  · intro t ht hside
    unfold validateRecommendations at ht
    rcases List.mem_append.mp ht with h | h
    · exact absurd (hsideS t h) (by rw [hside]; intro hcon; cases hcon)
    · exact (hsideB t h).2

/-- Witness for C1's amended theorem at a concrete portfolio and an empty
batch. -/
theorem risk_engine_cash_and_position_bounds_witness :
    approvedValueSum
        (validateRecommendations ⟨20, 6/10, 1⟩ ⟨100, [(1, 50)]⟩ []) Side.buy
      ≤ 100
        + approvedValueSum
            (validateRecommendations ⟨20, 6/10, 1⟩ ⟨100, [(1, 50)]⟩ [])
            Side.sell :=
  (risk_engine_cash_and_position_bounds ⟨20, 6/10, 1⟩ ⟨100, [(1, 50)]⟩ []
    (by norm_num) (by norm_num)).1

/-- Helper: de-duplication only keeps elements of its input. -/
theorem mem_of_mem_dedupById {r : MemoryReport} :
    ∀ (seen : List Nat) (l : List MemoryReport),
      r ∈ dedupById seen l → r ∈ l := by
  intro seen l
  induction l generalizing seen with
  | nil =>
    intro h
    simp [dedupById] at h
  | cons a t ih =>
    intro h
    unfold dedupById at h
    by_cases hmem : a.id ∈ seen
    · rw [if_pos hmem] at h
      exact List.mem_cons_of_mem a (ih _ h)
    · rw [if_neg hmem] at h
      rcases List.mem_cons.mp h with h1 | h2
      · rw [h1]
        exact List.mem_cons_self a t
      · exact List.mem_cons_of_mem a (ih _ h2)

/-- Claim C2: Memory Retrieval respects the backtest partition — a
report returned under live scope is never backtest-tagged, and a report
returned under BacktestRun `b`'s scope is backtest-tagged with run id
exactly `b`; hence a row tagged with run `A` is never returned under live
scope or under any run `B ≠ A`, and untagged rows never appear inside a
backtest scope. -/
theorem memory_scope_isolation (scope : MemoryScope)
    (store : List MemoryReport) (cand : MemoryCandidate) (rsiTol : ℚ)
    (r : MemoryReport) (hr : r ∈ retrieveMemory scope store cand rsiTol) :
    (scope = .live → r.isBacktest = false)
    ∧ (∀ b, scope = .backtestRun b →
        r.isBacktest = true ∧ r.backtestRunId = some b) :=
  by
  have hvis : visibleInScope scope r = true := by
    simp only [retrieveMemory] at hr
    have h2 := mem_of_mem_dedupById _ _ (List.take_subset _ _ hr)
    rcases List.mem_append.mp h2 with h12 | h3
    · rcases List.mem_append.mp h12 with ht1 | ht2
      · have hm := (List.mergeSort_perm _ _).mem_iff.mp
          (List.take_subset _ _ ht1)
        exact (List.mem_filter.mp (List.mem_filter.mp hm).1).2
      · have hm := (List.mergeSort_perm _ _).mem_iff.mp
          (List.take_subset _ _ ht2)
        exact (List.mem_filter.mp (List.mem_filter.mp hm).1).2
    · exact (List.mem_filter.mp (List.mem_filter.mp h3).1).2
  constructor
  · rintro rfl
    simpa [visibleInScope] using hvis
  · rintro b rfl
    simp [visibleInScope] at hvis
    exact hvis

/-- Witness for C2: a live store's sole (untagged) report is returned
under live scope and is indeed not backtest-tagged. -/
theorem memory_scope_isolation_witness :
    (⟨1, 7, 2, .buy, false, none, 5, none, 50, true⟩
        : MemoryReport).isBacktest = false :=
  (memory_scope_isolation .live
      [⟨1, 7, 2, .buy, false, none, 5, none, 50, true⟩]
      ⟨7, 2, .buy, 50, true⟩ 5
      ⟨1, 7, 2, .buy, false, none, 5, none, 50, true⟩
      (by simp [retrieveMemory, visibleInScope, dedupById,
        List.mergeSort_singleton])).1 rfl

/-- Claim C10: `sortPositions` is a pure reordering — it returns a new
list that is a permutation of the input (each element occurring exactly
as often as before; the input is untouched), and for the numeric sort
keys any field value with no parsable numeric prefix is compared as 0. -/
theorem sortPositions_pure_reordering
    (ps : List PositionResponse) (sort : SortConfig) :
    (sortPositions ps sort).Perm ps
    ∧ (∀ p : PositionResponse, (sortPositions ps sort).count p = ps.count p)
    ∧ (∀ k ∈ numericKeys, ∀ p : PositionResponse,
        jsParseFloat (rawField p k) = none → sortVal k p = .num 0) :=
  by
  refine ⟨List.mergeSort_perm ps _, ?_, ?_⟩
  · intro p
    exact (List.mergeSort_perm ps _).count_eq p
  · intro k hk p hparse
    unfold sortVal
    rw [if_pos hk]
    unfold numericValue
    rw [hparse]
    rfl

/-- Witness for C10 on a one-element list whose `quantity` is the
unparsable string `"abc"`. -/
theorem sortPositions_pure_reordering_witness :
    (sortPositions
        [⟨1, 1, some "AAPL", "abc", "10", none, none, none, "EUR", "OPEN"⟩]
        ⟨.quantity, .desc⟩).Perm
      [⟨1, 1, some "AAPL", "abc", "10", none, none, none, "EUR", "OPEN"⟩]
    ∧ sortVal .quantity
        ⟨1, 1, some "AAPL", "abc", "10", none, none, none, "EUR", "OPEN"⟩
      = .num 0 :=
  ⟨(sortPositions_pure_reordering _ ⟨.quantity, .desc⟩).1,
   (sortPositions_pure_reordering [] ⟨.quantity, .desc⟩).2.2 .quantity
      (by decide) _ (by decide)⟩

/-- Witness for C8's amended theorem on concrete responses: a 404 whose
body carries `error.message`, and a 500 with a non-JSON body. -/
theorem apifetch_success_iff_witness :
    apiFetch ⟨404, "Not Found", some ⟨some "boom", none⟩⟩ = .apiError "boom"
    ∧ apiFetch ⟨500, "Server Error", none⟩
        = .apiError (fallbackMessage ⟨500, "Server Error", none⟩) :=
  ⟨(apifetch_success_iff ⟨404, "Not Found", some ⟨some "boom", none⟩⟩).2.2.1
      ⟨some "boom", none⟩ "boom" (by decide) rfl rfl,
   (apifetch_success_iff ⟨500, "Server Error", none⟩).2.2.2.2.2.2
      (by decide) rfl⟩

end SpeculAI
